import Mathlib

/-!
Shallow embedding of the rustifzm Z-machine interpreter core
(crate `rustifzm`: `zmemory.rs`, `zmachine/header.rs`, `zcpu.rs`,
`zcpu/instructions.rs`, `zobjects.rs`, `zmachine.rs`).

Machine integers (`u8`, `u16`) are modelled as `Nat`; wrapping arithmetic
(`wrapping_add`, release-mode overflow of `+`/`-`) is made explicit with
`% 256` / `% 65536`.  Fallible Rust functions returning `ZmResult<T>`
become `Except ZmError T`.  `debug_assert!` is a no-op in release builds
and is modelled as such.
-/

deriving instance DecidableEq for Except

namespace Rustifzm

/-- ZMachineVersion from `zmachine/header.rs`: versions V1 to V8. -/
inductive ZMachineVersion where
  | V1 | V2 | V3 | V4 | V5 | V6 | V7 | V8
  deriving DecidableEq, Repr

namespace ZMachineVersion

/-- Discriminant of the version, as in the Rust `enum` (V1 = 1, ..., V8 = 8).
The derived Rust `Ord` compares these discriminants. -/
def toNat : ZMachineVersion → Nat
  | V1 => 1 | V2 => 2 | V3 => 3 | V4 => 4
  | V5 => 5 | V6 => 6 | V7 => 7 | V8 => 8

end ZMachineVersion

/-- ZMemoryAddress from `zmemory.rs`: the four kinds of tagged addresses.
Payloads are `u16` values, modelled as `Nat`. -/
inductive ZMemoryAddress where
  | Byte (a : Nat)
  | Word (a : Nat)
  | RelativeWord (a : Nat)
  | Packed (a : Nat)
  deriving DecidableEq, Repr

/-- ZmErrorKind from `errors.rs` (the `ZmError` wrapper only adds a backtrace
context, so we identify the two).  `MachineIo` models `MachineIO` (its
`io::Error` payload is irrelevant to the claims and dropped). -/
inductive ZmError where
  | MachineIo
  | MachineUnknownVersion (v : Nat)
  | MachineUnsupportedVersion (v : ZMachineVersion)
  | MemoryInvalidAccess (a : Nat)
  | MemoryInvalidAddress (addr : ZMemoryAddress)
  deriving DecidableEq, Repr

/-- `TryFrom<u8> for ZMachineVersion` (`header.rs`): bytes 1..=8 map to the
versions, anything else is a `MachineUnknownVersion` fault.  The source's
`match` on the byte is rendered as an `if` chain. -/
def ZMachineVersion.tryFrom (value : Nat) : Except ZmError ZMachineVersion :=
  if value = 1 then .ok .V1
  else if value = 2 then .ok .V2
  else if value = 3 then .ok .V3
  else if value = 4 then .ok .V4
  else if value = 5 then .ok .V5
  else if value = 6 then .ok .V6
  else if value = 7 then .ok .V7
  else if value = 8 then .ok .V8
  else .error (.MachineUnknownVersion value)

/-- ZMemory from `zmemory.rs`: the raw byte buffer (a `Vec<u8>`). -/
structure ZMemory where
  buffer : List Nat
  deriving DecidableEq, Repr

namespace ZMemory

/-- `ZMemory::read_byte`: a `Byte` address reads `buffer[a]`, out of bounds is
`MemoryInvalidAccess`, any other address kind is `MemoryInvalidAddress`. -/
def read_byte (m : ZMemory) (address : ZMemoryAddress) : Except ZmError Nat :=
  match address with
  | .Byte a =>
    match m.buffer[a]? with
    | some v => .ok v
    | none => .error (.MemoryInvalidAccess a)
  | _ => .error (.MemoryInvalidAddress address)

/-- `ZMemory::read_word`: big-endian; reads `buffer[a]` then `buffer[a + 1]`.
The source computes `a + 1` in `u16`, which wraps at `2^16`. -/
def read_word (m : ZMemory) (address : ZMemoryAddress) : Except ZmError Nat :=
  match address with
  | .Word a =>
    match m.buffer[a]? with
    | none => .error (.MemoryInvalidAccess a)
    | some upper =>
      match m.buffer[(a + 1) % 65536]? with
      | none => .error (.MemoryInvalidAccess ((a + 1) % 65536))
      | some lower => .ok ((upper <<< 8) ||| lower)
  | _ => .error (.MemoryInvalidAddress address)

/-- `ZMemory::write_byte`: in-bounds `Byte` writes update the buffer
(`Vec::get_mut`), otherwise the faults mirror `read_byte`. -/
def write_byte (m : ZMemory) (address : ZMemoryAddress) (value : Nat) :
    Except ZmError ZMemory :=
  match address with
  | .Byte a =>
    if a < m.buffer.length then .ok ⟨m.buffer.set a value⟩
    else .error (.MemoryInvalidAccess a)
  | _ => .error (.MemoryInvalidAddress address)

/-- `ZMemory::write_word`: two sequential byte writes, most significant first;
`a + 1` is `u16` arithmetic, as in `read_word`. -/
def write_word (m : ZMemory) (address : ZMemoryAddress) (value : Nat) :
    Except ZmError ZMemory :=
  match address with
  | .Word a =>
    match m.write_byte (.Byte a) ((value &&& 0xFF00) >>> 8) with
    | .error e => .error e
    | .ok m1 =>
      match m1.write_byte (.Byte ((a + 1) % 65536)) (value &&& 0x00FF) with
      | .error e => .error e
      | .ok m2 => .ok m2
  | _ => .error (.MemoryInvalidAddress address)

end ZMemory

/-! ### Header (`zmachine/header.rs`)

The three `bitflags!` types are modelled as their raw bit patterns (`Nat`);
`from_bits_truncate` masks with the union of the declared bits:
`ZMachineHeaderFlags1` declares `0x02 | 0x04 | 0x10 | 0x20 | 0x40 = 0x76`,
`ZMachineHeaderFlags1Features` declares
`0x01 | 0x02 | 0x04 | 0x08 | 0x10 | 0x20 | 0x80 = 0xBF`, and
`ZMachineHeaderFlags2` declares bits `0x01 ..= 0x80` plus `0x100 = 0x1FF`. -/

/-- Union of the bits declared by `bitflags! ZMachineHeaderFlags1`. -/
def flags1OldMask : Nat := 0x76

/-- Union of the bits declared by `bitflags! ZMachineHeaderFlags1Features`. -/
def flags1FeaturesMask : Nat := 0xBF

/-- Union of the bits declared by `bitflags! ZMachineHeaderFlags2`. -/
def flags2Mask : Nat := 0x1FF

/-- `ZMachineHeaderFlags2::allowed_flags` (`header.rs`): all Flags2 bits legal
for the given version and available `Flags1` features.  Bit names:
`ENABLE_TRANSCRIPTING = 0x01`, `FORCE_PRINTING_FIXED_PITCH = 0x02`,
`REQUEST_PICTURES = 0x08`, `REQUEST_UNDO_OPCODES = 0x10`,
`REQUEST_MOUSE = 0x20`, `REQUEST_COLORS = 0x40`, `REQUEST_SFX = 0x80`,
`REQUEST_MENUS = 0x100`; features `AVAILABLE_PICTURE = 0x02`,
`AVAILABLE_SFX = 0x20`. -/
def allowed_flags (version : ZMachineVersion) (flags1 : Option Nat) : Nat :=
  let base : Nat :=
    0x01 ||| 0x40 ||| (if 3 ≤ version.toNat then 0x02 else 0)
  match flags1 with
  | some f =>
    base |||
      (if 5 ≤ version.toNat then
        0x10 ||| 0x20 |||
          (if f &&& 0x02 = 0x02 then 0x08 else 0) |||
          (if f &&& 0x20 = 0x20 then 0x80 else 0)
      else 0) |||
      (if 6 ≤ version.toNat then 0x100 else 0)
  | none => base

/-- ZMachineHeader from `header.rs`: the decoded header fields. -/
structure ZMachineHeader where
  version : ZMachineVersion
  base_high_memory : ZMemoryAddress
  initial_pc : ZMemoryAddress
  flags1_old : Option Nat
  flags1 : Option Nat
  flags2 : Nat
  location_dictionary : ZMemoryAddress
  location_object_table : ZMemoryAddress
  location_global_variables_table : ZMemoryAddress
  base_static_memory : ZMemoryAddress
  location_abbreviations_table : Option ZMemoryAddress
  deriving DecidableEq, Repr

namespace ZMachineHeader

/-- `ZMachineHeader::from_memory`: decodes the header, reading the fields in
the order the Rust struct literal evaluates them (version byte at 0x00, the
initial-PC word at 0x06, then high-memory base 0x04, dictionary 0x08, object
table 0x0A, globals 0x0C, static base 0x0E, and the abbreviations table word
0x18 for V2+).  The initial PC is a packed address for V6+, a byte address
otherwise. -/
def from_memory (memory : ZMemory) : Except ZmError ZMachineHeader :=
  match memory.read_byte (.Byte 0x00) with
  | .error e => .error e
  | .ok version_raw =>
  match ZMachineVersion.tryFrom version_raw with
  | .error e => .error e
  | .ok version =>
  match memory.read_word (.Word 0x06) with
  | .error e => .error e
  | .ok initial_pc_raw =>
  match memory.read_word (.Word 0x04) with
  | .error e => .error e
  | .ok high_raw =>
  match memory.read_word (.Word 0x08) with
  | .error e => .error e
  | .ok dictionary_raw =>
  match memory.read_word (.Word 0x0A) with
  | .error e => .error e
  | .ok object_table_raw =>
  match memory.read_word (.Word 0x0C) with
  | .error e => .error e
  | .ok globals_raw =>
  match memory.read_word (.Word 0x0E) with
  | .error e => .error e
  | .ok static_raw =>
  match (if 2 ≤ version.toNat then
          match memory.read_word (.Word 0x18) with
          | .error e => .error e
          | .ok a => .ok (some (ZMemoryAddress.Byte a))
        else .ok none : Except ZmError (Option ZMemoryAddress)) with
  | .error e => .error e
  | .ok abbreviations =>
    .ok { version := version
          initial_pc := if 6 ≤ version.toNat then .Packed initial_pc_raw
                        else .Byte initial_pc_raw
          flags1_old := none
          flags1 := none
          flags2 := 0
          base_high_memory := .Byte high_raw
          location_dictionary := .Byte dictionary_raw
          location_object_table := .Byte object_table_raw
          location_global_variables_table := .Byte globals_raw
          base_static_memory := .Byte static_raw
          location_abbreviations_table := abbreviations }

/-- `ZMachineHeader::reset`: re-reads Flags1 from byte 0x01 and writes it back
(for V4+ truncated to the feature bits; below V4 masked with
`STATUS_LINE_TYPE & STORY_SPLIT_DISCS`, i.e. `&&& 0x02 &&& 0x04`, exactly as
the source chains the two `&`), filters Flags2 through `allowed_flags` and
writes it back at word 0x10, then stamps revision bytes 0x32/0x33 with 1.
Returns the updated header and memory (the Rust method mutates both through
`&mut`). -/
def reset (h : ZMachineHeader) (m : ZMemory) :
    Except ZmError (ZMachineHeader × ZMemory) :=
  match m.read_byte (.Byte 0x01) with
  | .error e => .error e
  | .ok flags1_raw =>
  match (if 4 ≤ h.version.toNat then
          match m.write_byte (.Byte 0x01) (flags1_raw &&& flags1FeaturesMask) with
          | .error e => .error e
          | .ok m1 =>
            .ok ({ h with flags1 := some (flags1_raw &&& flags1FeaturesMask) },
                 m1)
        else
          match m.write_byte (.Byte 0x01)
              (flags1_raw &&& flags1OldMask &&& 0x02 &&& 0x04) with
          | .error e => .error e
          | .ok m1 =>
            .ok ({ h with
                   flags1_old := some (flags1_raw &&& flags1OldMask &&& 0x02 &&& 0x04) },
                 m1) :
        Except ZmError (ZMachineHeader × ZMemory)) with
  | .error e => .error e
  | .ok (h1, m1) =>
  match m1.read_word (.Word 0x10) with
  | .error e => .error e
  | .ok flags2_raw =>
  match m1.write_word (.Word 0x10)
      ((flags2_raw &&& flags2Mask) &&& allowed_flags h1.version h1.flags1) with
  | .error e => .error e
  | .ok m2 =>
  match m2.write_byte (.Byte 0x32) 0x1 with
  | .error e => .error e
  | .ok m3 =>
  match m3.write_byte (.Byte 0x33) 0x1 with
  | .error e => .error e
  | .ok m4 =>
    .ok ({ h1 with flags2 :=
            (flags2_raw &&& flags2Mask) &&& allowed_flags h1.version h1.flags1 },
         m4)

/-- `ZMachineHeader::get_version`. -/
def get_version (h : ZMachineHeader) : ZMachineVersion := h.version

/-- `ZMachineHeader::get_initial_pc`. -/
def get_initial_pc (h : ZMachineHeader) : ZMemoryAddress := h.initial_pc

end ZMachineHeader

/-! ### Instruction decoder (`zcpu/instructions.rs`) -/

/-- InstructionOperand from `instructions.rs`. -/
inductive InstructionOperand where
  | ConstantLarge (v : Nat)
  | ConstantSmall (v : Nat)
  | Variable (v : Nat)
  | Omitted
  deriving DecidableEq, Repr

/-- InstructionOperandCount from `instructions.rs`. -/
inductive InstructionOperandCount where
  | Fixed (n : Nat)
  | Variable
  deriving DecidableEq, Repr

/-- InstructionForm from `instructions.rs`. -/
inductive InstructionForm where
  | Long
  | Short
  | Extended
  | Variable
  deriving DecidableEq, Repr

/-- `InstructionForm::from_opcode` (R4.3): `0xBE` with version ≥ V5 is
Extended; otherwise the top two bits of the opcode byte select the form. -/
def InstructionForm.from_opcode (opcode_msb : Nat) (target : ZMachineVersion) :
    InstructionForm :=
  if opcode_msb = 0xBE ∧ 5 ≤ target.toNat then .Extended
  else
    match opcode_msb &&& 0b11000000 with
    | 0b11000000 => .Variable
    | 0b10000000 => .Short
    | _ => .Long

/-- Operation from `instructions.rs`: a decoded instruction. -/
structure Operation where
  form : InstructionForm
  opcode_number : Nat
  operands : List InstructionOperand
  deriving DecidableEq, Repr

/-- `Operation::decoded`: pulls bytes through the caller-supplied `next_byte`
capability.  The Rust closure is `FnMut` and mutates its captured state even
when it fails, so the byte source is modelled as a state-passing function
`σ → Except ZmError Nat × σ` and `decoded` returns the final source state
alongside the result.  Faithful to the source, after resolving the opcode
number and operand count it returns the operation with an EMPTY operand
list (`operands: vec![]`); the computed operand count is dropped. -/
def Operation.decoded (target : ZMachineVersion)
    (next_byte : σ → Except ZmError Nat × σ) (s : σ) :
    Except ZmError Operation × σ :=
  match next_byte s with
  | (.error e, s1) => (.error e, s1)
  | (.ok opcode_msb, s1) =>
    let form := InstructionForm.from_opcode opcode_msb target
    match form with
    | .Short =>
      -- R4.3.1: bits 4-5 decide between zero and one operand
      let _operands_count : InstructionOperandCount :=
        match (opcode_msb &&& 0b00110000) >>> 4 with
        | 0b00 => .Fixed 0
        | _ => .Fixed 1
      (.ok { form := form, opcode_number := opcode_msb &&& 0b00001111,
             operands := [] }, s1)
    | .Long =>
      -- R4.3.2: always two operands
      (.ok { form := form, opcode_number := opcode_msb &&& 0b00011111,
             operands := [] }, s1)
    | .Variable =>
      -- R4.3.3: bit 5 decides between two operands and a variable count
      let _operands_count : InstructionOperandCount :=
        match (opcode_msb &&& 0b00100000) >>> 5 with
        | 0b0 => .Fixed 2
        | _ => .Variable
      (.ok { form := form, opcode_number := opcode_msb &&& 0b00011111,
             operands := [] }, s1)
    | .Extended =>
      -- R4.3.4: a second byte supplies the opcode number
      match next_byte s1 with
      | (.error e, s2) => (.error e, s2)
      | (.ok opcode_number, s2) =>
        (.ok { form := form, opcode_number := opcode_number,
               operands := [] }, s2)

/-- A byte source backed by a list, for exercising `Operation.decoded` on a
concrete byte stream; exhaustion yields a fault (never reached on the inputs
used below). -/
def listNextByte : List Nat → Except ZmError Nat × List Nat
  | [] => (.error .MachineIo, [])
  | b :: rest => (.ok b, rest)

/-! ### CPU (`zcpu.rs`) -/

/-- ZCpu from `zcpu.rs`: target version and program counter (`u16`). -/
structure ZCpu where
  target : ZMachineVersion
  pc : Nat
  deriving DecidableEq, Repr

namespace ZCpu

/-- `ZCpu::from_header`: accepts only a `Byte` initial PC. -/
def from_header (header : ZMachineHeader) : Except ZmError ZCpu :=
  match header.get_initial_pc with
  | .Byte pc => .ok { target := header.get_version, pc := pc }
  | a => .error (.MemoryInvalidAddress a)

/-- The `next_byte` closure `ZCpu::fetch_decoded_instruction` passes to
`Operation::decoded`: read the byte at the PC, then advance the PC with
`wrapping_add(1)`.  On a read fault the PC is left unchanged (the increment
comes after the `?`). -/
def nextByteAtPc (memory : ZMemory) (c : ZCpu) : Except ZmError Nat × ZCpu :=
  match memory.read_byte (.Byte c.pc) with
  | .error e => (.error e, c)
  | .ok b => (.ok b, { c with pc := (c.pc + 1) % 65536 })

/-- `ZCpu::fetch_decoded_instruction`. -/
def fetch_decoded_instruction (c : ZCpu) (memory : ZMemory) :
    Except ZmError Operation × ZCpu :=
  Operation.decoded c.target (nextByteAtPc memory) c

/-- `ZCpu::execute_decoded_instruction`: the source body is just `Ok(())` --
no state is touched. -/
def execute_decoded_instruction (c : ZCpu) (memory : ZMemory)
    (_operation : Operation) : Except ZmError Unit × ZCpu × ZMemory :=
  (.ok (), c, memory)

/-- `ZCpu::step`: fetch then execute; a fetch fault propagates, but the PC
increments already performed by the byte source persist (`&mut self`). -/
def step (c : ZCpu) (memory : ZMemory) :
    Except ZmError Unit × ZCpu × ZMemory :=
  match c.fetch_decoded_instruction memory with
  | (.error e, c1) => (.error e, c1, memory)
  | (.ok operation, c1) => c1.execute_decoded_instruction memory operation

/-- Number of bytes `Operation::decoded` successfully pulls from the CPU's
byte source during `ZCpu::step`: one for the opcode byte (when readable),
plus one for the Extended-form second opcode byte (when readable).  This
mirrors exactly the `next_byte` calls in `Operation::decoded`. -/
def stepConsumed (c : ZCpu) (memory : ZMemory) : Nat :=
  match memory.read_byte (.Byte c.pc) with
  | .error _ => 0
  | .ok opcode_msb =>
    match InstructionForm.from_opcode opcode_msb c.target with
    | .Extended =>
      match memory.read_byte (.Byte ((c.pc + 1) % 65536)) with
      | .error _ => 1
      | .ok _ => 2
    | _ => 1

end ZCpu

/-! ### Machine (`zmachine.rs`) -/

/-- ZMachine from `zmachine.rs`. -/
structure ZMachine where
  memory : ZMemory
  header : ZMachineHeader
  cpu : ZCpu
  deriving DecidableEq, Repr

namespace ZMachine

/-- `ZMachine::from_story_reader`: the story stream read to exhaustion is the
byte list.  Decode the header, capture the version, reset the header against
memory, build the CPU, then accept only V3 stories. -/
def from_story_reader (bytes : List Nat) : Except ZmError ZMachine :=
  let memory : ZMemory := ⟨bytes⟩
  match ZMachineHeader.from_memory memory with
  | .error e => .error e
  | .ok header =>
  let version := header.get_version
  match header.reset memory with
  | .error e => .error e
  | .ok (header1, memory1) =>
  match ZCpu.from_header header1 with
  | .error e => .error e
  | .ok cpu =>
    match version with
    | .V3 => .ok { memory := memory1, header := header1, cpu := cpu }
    | _ => .error (.MachineUnsupportedVersion version)

/-- `ZMachine::step`. -/
def step (m : ZMachine) : Except ZmError Unit × ZMachine :=
  match m.cpu.step m.memory with
  | (r, cpu1, memory1) => (r, { m with cpu := cpu1, memory := memory1 })

end ZMachine

/-! ### Object properties (`zobjects.rs`) -/

/-- ZObjectProperty from `zobjects.rs`. -/
structure ZObjectProperty where
  address : ZMemoryAddress
  index : Nat
  length : Nat
  data : List Nat
  deriving DecidableEq, Repr

/-- `ZMemoryAddress::as_byte`. -/
def ZMemoryAddress.as_byte : ZMemoryAddress → Except ZmError Nat
  | .Byte address => .ok address
  | a => .error (.MemoryInvalidAddress a)

/-- The `for offset in 1..=length` data-reading loop of
`ZObjectProperty::from_memory`: reads bytes at `address + 1 ..= address +
length` (wrapping `u16` additions). -/
def readPropertyData (memory : ZMemory) (base : Nat) (len : Nat) :
    Except ZmError (List Nat) :=
  (List.range len).mapM fun i =>
    memory.read_byte (.Byte ((base + (i + 1)) % 65536))

/-- `ZObjectProperty::from_memory` for versions ≤ V3 (the V4+ branch is a
`todo!()` panic in the source, modelled as the `MachineIo` sentinel fault; no
claim exercises it).  The length is `(size_byte - property_number) / 32` with
wrapping `u8` subtraction; the `debug_assert!(1 <= length && length <= 8)` is
compiled out in release builds and so has no effect here. -/
def ZObjectProperty.from_memory (property_number : Nat)
    (address : ZMemoryAddress) (memory : ZMemory)
    (version : ZMachineVersion) : Except ZmError ZObjectProperty :=
  if 4 ≤ version.toNat then .error .MachineIo
  else
    match memory.read_byte address with
    | .error e => .error e
    | .ok size_byte =>
    let length := ((size_byte + 256 - property_number % 256) % 256) / 32
    match address.as_byte with
    | .error e => .error e
    | .ok address_as_byte =>
    match readPropertyData memory address_as_byte length with
    | .error e => .error e
    | .ok data =>
      .ok { address := address, index := property_number,
            length := length, data := data }

/-! ### Helper lemmas about the memory operations -/

namespace ZMemory

theorem read_byte_ok (m : ZMemory) (a : Nat) (h : a < m.buffer.length) :
    ∃ v, m.read_byte (.Byte a) = .ok v := by
  simp [ZMemory.read_byte, List.getElem?_eq_getElem h]

theorem read_byte_err (m : ZMemory) (a : Nat) (h : m.buffer.length ≤ a) :
    m.read_byte (.Byte a) = .error (.MemoryInvalidAccess a) := by
  simp [ZMemory.read_byte, List.getElem?_eq_none h]

theorem read_word_ok (m : ZMemory) (a : Nat) (h1 : a < m.buffer.length)
    (h2 : a + 1 < m.buffer.length) (h3 : a + 1 < 65536) :
    ∃ w, m.read_word (.Word a) = .ok w := by
  simp [ZMemory.read_word, Nat.mod_eq_of_lt h3, List.getElem?_eq_getElem h1,
    List.getElem?_eq_getElem h2]

theorem write_byte_ok (m : ZMemory) (a v : Nat) (h : a < m.buffer.length) :
    m.write_byte (.Byte a) v = .ok ⟨m.buffer.set a v⟩ := by
  simp [ZMemory.write_byte, h]

theorem write_word_ok (m : ZMemory) (a v : Nat) (h1 : a < m.buffer.length)
    (h2 : a + 1 < m.buffer.length) (h3 : a + 1 < 65536) :
    m.write_word (.Word a) v =
      .ok ⟨(m.buffer.set a ((v &&& 0xFF00) >>> 8)).set (a + 1)
            (v &&& 0x00FF)⟩ := by
  have h2' : a + 1 < (m.buffer.set a ((v &&& 0xFF00) >>> 8)).length := by
    simpa using h2
  simp [ZMemory.write_word, Nat.mod_eq_of_lt h3,
    write_byte_ok m a ((v &&& 0xFF00) >>> 8) h1,
    write_byte_ok _ (a + 1) (v &&& 0x00FF) h2']

theorem write_byte_ok_inv (m m' : ZMemory) (a v : Nat)
    (h : m.write_byte (.Byte a) v = .ok m') :
    m' = ⟨m.buffer.set a v⟩ ∧ a < m.buffer.length := by
  simp only [ZMemory.write_byte] at h
  split at h
  · cases h
    exact ⟨rfl, by assumption⟩
  · cases h

theorem write_word_ok_inv (m m' : ZMemory) (a v : Nat)
    (h : m.write_word (.Word a) v = .ok m') :
    m' = ⟨(m.buffer.set a ((v &&& 0xFF00) >>> 8)).set ((a + 1) % 65536)
            (v &&& 0x00FF)⟩ ∧
      a < m.buffer.length ∧ (a + 1) % 65536 < m.buffer.length := by
  simp only [ZMemory.write_word] at h
  split at h
  · case _ e heq => cases h
  · case _ m1 heq =>
    split at h
    · cases h
    · case _ m2 heq2 =>
      cases h
      obtain ⟨rfl, hb1⟩ := write_byte_ok_inv _ _ _ _ heq
      obtain ⟨rfl, hb2⟩ := write_byte_ok_inv _ _ _ _ heq2
      refine ⟨rfl, hb1, ?_⟩
      simpa using hb2

end ZMemory

/-- A successful `tryFrom` returns the version whose discriminant is the
byte. -/
theorem tryFrom_toNat (b : Nat) (v : ZMachineVersion)
    (hv : ZMachineVersion.tryFrom b = .ok v) : v.toNat = b := by
  unfold ZMachineVersion.tryFrom at hv
  split_ifs at hv <;>
    first
    | (injection hv with hv
       subst hv
       simp only [ZMachineVersion.toNat]
       omega)
    | exact Except.noConfusion hv

/-- Bytes 1..=8 convert successfully. -/
theorem tryFrom_ok_of (b : Nat) (h1 : 1 ≤ b) (h8 : b ≤ 8) :
    ∃ v, ZMachineVersion.tryFrom b = .ok v := by
  interval_cases b <;> exact ⟨_, rfl⟩

/-- Bytes outside 1..=8 fail with the unknown-version fault. -/
theorem tryFrom_err (b : Nat) (hb : ¬(1 ≤ b ∧ b ≤ 8)) :
    ZMachineVersion.tryFrom b = .error (.MachineUnknownVersion b) := by
  unfold ZMachineVersion.tryFrom
  split_ifs <;> first | rfl | omega

/-- On a buffer holding at least the 64-byte header, `from_memory` succeeds
once the version byte converts, producing a header with that version and
with the version-dependent initial-PC address kind. -/
theorem from_memory_ok_of (m : ZMemory) (b : Nat) (v : ZMachineVersion)
    (hlen : 64 ≤ m.buffer.length) (hb : m.read_byte (.Byte 0) = .ok b)
    (hv : ZMachineVersion.tryFrom b = .ok v) :
    ∃ hh w6, m.read_word (.Word 0x06) = .ok w6 ∧
      ZMachineHeader.from_memory m = .ok hh ∧
      hh.version = v ∧
      hh.initial_pc =
        (if 6 ≤ v.toNat then ZMemoryAddress.Packed w6 else .Byte w6) := by
  obtain ⟨w6, hw6⟩ := m.read_word_ok 6 (by omega) (by omega) (by norm_num)
  obtain ⟨w4, hw4⟩ := m.read_word_ok 4 (by omega) (by omega) (by norm_num)
  obtain ⟨w8, hw8⟩ := m.read_word_ok 8 (by omega) (by omega) (by norm_num)
  obtain ⟨wA, hwA⟩ := m.read_word_ok 10 (by omega) (by omega) (by norm_num)
  obtain ⟨wC, hwC⟩ := m.read_word_ok 12 (by omega) (by omega) (by norm_num)
  obtain ⟨wE, hwE⟩ := m.read_word_ok 14 (by omega) (by omega) (by norm_num)
  by_cases h2 : 2 ≤ v.toNat
  · obtain ⟨w18, hw18⟩ := m.read_word_ok 24 (by omega) (by omega) (by norm_num)
    refine ⟨{ version := v,
              initial_pc := if 6 ≤ v.toNat then .Packed w6 else .Byte w6,
              flags1_old := none, flags1 := none, flags2 := 0,
              base_high_memory := .Byte w4,
              location_dictionary := .Byte w8,
              location_object_table := .Byte wA,
              location_global_variables_table := .Byte wC,
              base_static_memory := .Byte wE,
              location_abbreviations_table := some (.Byte w18) },
            w6, hw6, ?_, rfl, rfl⟩
    unfold ZMachineHeader.from_memory
    simp only [hb, hv, hw6, hw4, hw8, hwA, hwC, hwE, if_pos h2, hw18]
  · refine ⟨{ version := v,
              initial_pc := if 6 ≤ v.toNat then .Packed w6 else .Byte w6,
              flags1_old := none, flags1 := none, flags2 := 0,
              base_high_memory := .Byte w4,
              location_dictionary := .Byte w8,
              location_object_table := .Byte wA,
              location_global_variables_table := .Byte wC,
              base_static_memory := .Byte wE,
              location_abbreviations_table := none },
            w6, hw6, ?_, rfl, rfl⟩
    unfold ZMachineHeader.from_memory
    simp only [hb, hv, hw6, hw4, hw8, hwA, hwC, hwE, if_neg h2]

/-- On a buffer holding at least the 64-byte header, `reset` always succeeds
and leaves the header's version and initial PC unchanged. -/
theorem reset_ok (h : ZMachineHeader) (m : ZMemory)
    (hlen : 64 ≤ m.buffer.length) :
    ∃ h2 m2, h.reset m = .ok (h2, m2) ∧ h2.version = h.version ∧
      h2.initial_pc = h.initial_pc := by
  obtain ⟨f1, hf1⟩ := m.read_byte_ok 1 (by omega)
  unfold ZMachineHeader.reset
  by_cases h4 : 4 ≤ h.version.toNat
  · have hwb := m.write_byte_ok 1 (f1 &&& flags1FeaturesMask) (by omega)
    obtain ⟨w2, hw2⟩ :=
      (ZMemory.mk (m.buffer.set 1 (f1 &&& flags1FeaturesMask))).read_word_ok
        16 (by simp only [List.length_set]; omega)
        (by simp only [List.length_set]; omega) (by norm_num)
    have hww :=
      (ZMemory.mk (m.buffer.set 1 (f1 &&& flags1FeaturesMask))).write_word_ok
        16 ((w2 &&& flags2Mask) &&&
            allowed_flags h.version (some (f1 &&& flags1FeaturesMask)))
        (by simp only [List.length_set]; omega)
        (by simp only [List.length_set]; omega) (by norm_num)
    rw [(by norm_num : (16 : Nat) + 1 = 17)] at hww
    have hw32 :=
      (ZMemory.mk (((m.buffer.set 1 (f1 &&& flags1FeaturesMask)).set 16
          ((((w2 &&& flags2Mask) &&&
              allowed_flags h.version (some (f1 &&& flags1FeaturesMask))) &&&
            0xFF00) >>> 8)).set 17
          (((w2 &&& flags2Mask) &&&
              allowed_flags h.version (some (f1 &&& flags1FeaturesMask))) &&&
            0x00FF))).write_byte_ok 50 1
        (by simp only [List.length_set]; omega)
    have hw33 :=
      (ZMemory.mk ((((m.buffer.set 1 (f1 &&& flags1FeaturesMask)).set 16
          ((((w2 &&& flags2Mask) &&&
              allowed_flags h.version (some (f1 &&& flags1FeaturesMask))) &&&
            0xFF00) >>> 8)).set 17
          (((w2 &&& flags2Mask) &&&
              allowed_flags h.version (some (f1 &&& flags1FeaturesMask))) &&&
            0x00FF)).set 50 1)).write_byte_ok 51 1
        (by simp only [List.length_set]; omega)
    refine ⟨{ h with
              flags1 := some (f1 &&& flags1FeaturesMask),
              flags2 := (w2 &&& flags2Mask) &&&
                allowed_flags h.version (some (f1 &&& flags1FeaturesMask)) },
            ZMemory.mk (((((m.buffer.set 1 (f1 &&& flags1FeaturesMask)).set 16
              ((((w2 &&& flags2Mask) &&&
                  allowed_flags h.version (some (f1 &&& flags1FeaturesMask))) &&&
                0xFF00) >>> 8)).set 17
              (((w2 &&& flags2Mask) &&&
                  allowed_flags h.version (some (f1 &&& flags1FeaturesMask))) &&&
                0x00FF)).set 50 1).set 51 1),
            ?_, rfl, rfl⟩
    simp only [hf1, if_pos h4, hwb, hw2, hww, hw32, hw33]
  · have hwb :=
      m.write_byte_ok 1 (f1 &&& flags1OldMask &&& 0x02 &&& 0x04) (by omega)
    obtain ⟨w2, hw2⟩ :=
      (ZMemory.mk (m.buffer.set 1
          (f1 &&& flags1OldMask &&& 0x02 &&& 0x04))).read_word_ok
        16 (by simp only [List.length_set]; omega)
        (by simp only [List.length_set]; omega) (by norm_num)
    have hww :=
      (ZMemory.mk (m.buffer.set 1
          (f1 &&& flags1OldMask &&& 0x02 &&& 0x04))).write_word_ok
        16 ((w2 &&& flags2Mask) &&& allowed_flags h.version h.flags1)
        (by simp only [List.length_set]; omega)
        (by simp only [List.length_set]; omega) (by norm_num)
    rw [(by norm_num : (16 : Nat) + 1 = 17)] at hww
    have hw32 :=
      (ZMemory.mk (((m.buffer.set 1
          (f1 &&& flags1OldMask &&& 0x02 &&& 0x04)).set 16
          ((((w2 &&& flags2Mask) &&& allowed_flags h.version h.flags1) &&&
            0xFF00) >>> 8)).set 17
          (((w2 &&& flags2Mask) &&& allowed_flags h.version h.flags1) &&&
            0x00FF))).write_byte_ok 50 1
        (by simp only [List.length_set]; omega)
    have hw33 :=
      (ZMemory.mk ((((m.buffer.set 1
          (f1 &&& flags1OldMask &&& 0x02 &&& 0x04)).set 16
          ((((w2 &&& flags2Mask) &&& allowed_flags h.version h.flags1) &&&
            0xFF00) >>> 8)).set 17
          (((w2 &&& flags2Mask) &&& allowed_flags h.version h.flags1) &&&
            0x00FF)).set 50 1)).write_byte_ok 51 1
        (by simp only [List.length_set]; omega)
    refine ⟨{ h with
              flags1_old := some (f1 &&& flags1OldMask &&& 0x02 &&& 0x04),
              flags2 := (w2 &&& flags2Mask) &&&
                allowed_flags h.version h.flags1 },
            ZMemory.mk (((((m.buffer.set 1
              (f1 &&& flags1OldMask &&& 0x02 &&& 0x04)).set 16
              ((((w2 &&& flags2Mask) &&& allowed_flags h.version h.flags1) &&&
                0xFF00) >>> 8)).set 17
              (((w2 &&& flags2Mask) &&& allowed_flags h.version h.flags1) &&&
                0x00FF)).set 50 1).set 51 1),
            ?_, rfl, rfl⟩
    simp only [hf1, if_neg h4, hwb, hw2, hww, hw32, hw33]

/-- For version 3, `allowed_flags` is the constant bit set
`ENABLE_TRANSCRIPTING | FORCE_PRINTING_FIXED_PITCH | REQUEST_COLORS = 0x43`,
whatever the available features are. -/
theorem allowed_flags_V3 (flags1 : Option Nat) :
    allowed_flags .V3 flags1 = 0x43 := by
  cases flags1 <;> simp [allowed_flags, ZMachineVersion.toNat]

set_option maxRecDepth 4096 in
/-- Reassembling a 16-bit word from the high and low bytes `write_word`
splits it into gives the word back, for values small enough (all Flags2
values fit in 9 bits). -/
theorem word_bytes_reassemble (x : Nat) (h : x < 512) :
    (((x &&& 0xFF00) >>> 8) <<< 8) ||| (x &&& 0x00FF) = x := by
  revert x
  decide

/-! ### Spec-side definitions and concrete fixtures -/

/-- Instruction-form selection as the (amended) spec sentence describes it:
`0xBE` with version ≥ 5 is Extended; otherwise the top two bits of the byte
(`b >>> 6` for a byte `b < 256`) select the form: `11` Variable, `10` Short,
anything else Long.  (For `0xBE` itself the top two bits are `10`.) -/
def instructionFormSpec (b : Nat) (v : ZMachineVersion) : InstructionForm :=
  if b = 0xBE ∧ 5 ≤ v.toNat then .Extended
  else if b >>> 6 = 3 then .Variable
  else if b >>> 6 = 2 then .Short
  else .Long

/-- A version-3 header value with a byte-address initial PC of 0x40 and no
decoded flags, as `ZMachineHeader.from_memory` would produce for a zeroed
image apart from the fields relevant to reset. -/
def hdrV3 : ZMachineHeader :=
  { version := .V3, base_high_memory := .Byte 0, initial_pc := .Byte 0x40,
    flags1_old := none, flags1 := none, flags2 := 0,
    location_dictionary := .Byte 0, location_object_table := .Byte 0,
    location_global_variables_table := .Byte 0, base_static_memory := .Byte 0,
    location_abbreviations_table := none }

/-- A 64-byte memory image whose Flags1 byte (offset 0x01) has the
status-line-type bit `0x02` set. -/
def memFlags1Set : ZMemory := ⟨(List.replicate 64 0).set 1 0x02⟩

/-- The minimal synthetic version-3 story of the spec's end-to-end scenario:
65 bytes, version byte 3 at offset 0, initial PC word 0x06 = 0x0040,
static-memory base word 0x0E = 0x0041 (beyond the 64-byte header), and the
single one-byte 0OP "return true" opcode 0xB0 at address 0x40. -/
def storyV3 : List Nat :=
  ((((List.replicate 65 0).set 0 3).set 7 0x40).set 0x0F 0x41).set 0x40 0xB0

/-! ### Claims -/

/-- C1 (counterexample): the claim says byte `0xBE` with version < 5 yields
the Variable form with top bits `11`; in fact `0xBE = 0b10111110` has top
bits `10` and `InstructionForm::from_opcode` yields Short. -/
theorem C1_counterexample :
    InstructionForm.from_opcode 0xBE .V4 = .Short ∧
      InstructionForm.Short ≠ InstructionForm.Variable := by
  decide

set_option maxRecDepth 4096 in
/-- C1 (amended): for every version and every first opcode byte, the form is
exhaustively determined: `0xBE` with version ≥ 5 yields Extended; `0xBE`
with version < 5 yields Short (its top two bits are `10`); otherwise top
bits `11` yield Variable, `10` Short, anything else Long. -/
theorem C1_instruction_form_selection (v : ZMachineVersion) (b : Nat)
    (hb : b < 256) :
    InstructionForm.from_opcode b v = instructionFormSpec b v := by
  cases v <;> revert b <;> decide

/-- C1 (witness): the amended statement at byte 0xBE, version V5. -/
theorem C1_instruction_form_selection_witness :
    0xBE < 256 ∧
      InstructionForm.from_opcode 0xBE .V5 = instructionFormSpec 0xBE .V5 :=
  ⟨by decide, C1_instruction_form_selection .V5 0xBE (by decide)⟩

/-- C2: whenever `ZMachineHeader::reset` returns successfully, the Flags2
word stored at word address 0x10 has no bit set outside
`allowed_flags` for the negotiated version and the available features; in
particular a version-3 image never ends up with the menus-request bit
0x0100 set after reset, even if it was set in the source bytes. -/
theorem C2_reset_flags2_legal (h : ZMachineHeader) (m : ZMemory)
    (p : ZMachineHeader × ZMemory) (hr : h.reset m = .ok p) :
    ∃ w, p.2.read_word (.Word 0x10) = .ok w ∧
      w &&& allowed_flags h.version p.1.flags1 = w ∧
      (h.version = .V3 → w &&& 0x100 = 0) := by
  unfold ZMachineHeader.reset at hr
  split at hr
  · exact Except.noConfusion hr
  rename_i flags1_raw heq1
  split at hr
  · exact Except.noConfusion hr
  rename_i h1 m1 heq2
  -- the Flags1 branch only updates flags fields, never the version
  have hver : h1.version = h.version := by
    split at heq2
    · split at heq2
      · exact Except.noConfusion heq2
      · injection heq2 with hpair
        injection hpair with hh hm
        rw [← hh]
    · split at heq2
      · exact Except.noConfusion heq2
      · injection heq2 with hpair
        injection hpair with hh hm
        rw [← hh]
  clear heq2
  split at hr
  · exact Except.noConfusion hr
  rename_i flags2_raw heq3
  split at hr
  · exact Except.noConfusion hr
  rename_i m2 heqww
  split at hr
  · exact Except.noConfusion hr
  rename_i m3 heqw32
  split at hr
  · exact Except.noConfusion hr
  rename_i m4 heqw33
  injection hr with hp
  subst hp
  obtain ⟨hm2, hb16, hb17⟩ := ZMemory.write_word_ok_inv _ _ _ _ heqww
  norm_num at hm2 hb17
  subst hm2
  obtain ⟨hm3, hb50⟩ := ZMemory.write_byte_ok_inv _ _ _ _ heqw32
  subst hm3
  obtain ⟨hm4, hb51⟩ := ZMemory.write_byte_ok_inv _ _ _ _ heqw33
  subst hm4
  -- the masked Flags2 value that was written back
  set F := (flags2_raw &&& flags2Mask) &&& allowed_flags h1.version h1.flags1
    with hF
  have hFlt : F < 512 := by
    have h1le : F ≤ flags2_raw &&& flags2Mask := Nat.and_le_left
    have h2le : flags2_raw &&& flags2Mask ≤ flags2Mask := Nat.and_le_right
    have : flags2Mask < 512 := by norm_num [flags2Mask]
    omega
  have hget16 :
      ((((m1.buffer.set 16 ((F &&& 0xFF00) >>> 8)).set 17 (F &&& 0x00FF)).set
          50 1).set 51 1)[16]? = some ((F &&& 0xFF00) >>> 8) := by
    rw [List.getElem?_set_ne (by decide), List.getElem?_set_ne (by decide),
      List.getElem?_set_ne (by decide),
      List.getElem?_set_self (by simpa using hb16)]
  have hget17 :
      ((((m1.buffer.set 16 ((F &&& 0xFF00) >>> 8)).set 17 (F &&& 0x00FF)).set
          50 1).set 51 1)[17]? = some (F &&& 0x00FF) := by
    rw [List.getElem?_set_ne (by decide), List.getElem?_set_ne (by decide),
      List.getElem?_set_self (by simpa using hb17)]
  refine ⟨F, ?_, ?_, ?_⟩
  · show ZMemory.read_word _ (.Word 16) = .ok F
    rw [ZMemory.read_word]
    simp only [hget16, hget17]
    norm_num
    exact word_bytes_reassemble F hFlt
  · show F &&& allowed_flags h.version h1.flags1 = F
    rw [← hver, hF, Nat.and_assoc, Nat.and_self]
  · intro hv3
    rw [hF, ← hver] at *
    rw [hver, hv3, allowed_flags_V3, Nat.and_assoc,
      (by decide : (0x43 : Nat) &&& 0x100 = 0), Nat.and_zero]

/-- C2 (witness): resetting a version-3 header against an all-0xFF 64-byte
image succeeds, and the theorem applies to the concrete result. -/
theorem C2_reset_flags2_legal_witness :
    ∃ w, (ZMemory.mk ((((((List.replicate 64 (0xFF : Nat)).set 1 0).set
          16 0).set 17 0x43).set 50 1).set 51 1)).read_word (.Word 0x10) =
        .ok w ∧
      w &&& allowed_flags hdrV3.version
          ({ hdrV3 with flags1_old := some 0, flags2 := 0x43 } :
            ZMachineHeader).flags1 = w ∧
      (hdrV3.version = .V3 → w &&& 0x100 = 0) :=
  C2_reset_flags2_legal hdrV3 ⟨List.replicate 64 0xFF⟩
    ({ hdrV3 with flags1_old := some 0, flags2 := 0x43 },
     ⟨(((((List.replicate 64 (0xFF : Nat)).set 1 0).set 16 0).set
         17 0x43).set 50 1).set 51 1⟩) (by decide)

/-- C3: loading the minimal synthetic version-3 story succeeds, the machine's
program counter starts at the initial PC 0x40, one `step` returns without a
fault, and the PC afterwards is 0x41 -- advanced exactly past the one-byte
0OP "return true" instruction. -/
theorem C3_minimal_story_step :
    (match ZMachine.from_story_reader storyV3 with
     | .ok m => some (m.cpu.pc, (m.step).1, (m.step).2.cpu.pc)
     | .error _ => none) = some (0x40, .ok (), 0x41) := by
  decide

/-- C4 (code bug): on the byte stream `E0 2F 12 34` (Variable form with
variable operand count), the decoder is claimed to read the operand-types
byte `0x2F` and then the operands; the code instead consumes only the opcode
byte and returns an empty operand list, leaving `2F 12 34` unread. -/
theorem C4_decoder_ignores_operands :
    Operation.decoded .V3 listNextByte [0xE0, 0x2F, 0x12, 0x34] =
      (.ok { form := .Variable, opcode_number := 0, operands := [] },
       [0x2F, 0x12, 0x34]) := by
  decide

/-- C5 (code bug): for V3 the property length decoded from size byte `s` and
property number `n` is `(s - n) / 32` instead of the claimed
`(s - n) / 32 + 1`: size byte 1 for property 1 (which encodes one data byte)
yields length 0 and no data read, contradicting the source's own
`debug_assert!(1 <= length)`; size byte 32 (a nonzero multiple of 32) is
accepted without the claimed fault; and size byte 34 for property 2 (which
encodes two data bytes) yields length 1 and a single data byte. -/
theorem C5_property_size_decoding :
    ZObjectProperty.from_memory 1 (.Byte 0) ⟨[1, 0xAA]⟩ .V3 =
      .ok { address := .Byte 0, index := 1, length := 0, data := [] } ∧
    ZObjectProperty.from_memory 1 (.Byte 0) ⟨[32, 0xAA, 0xBB]⟩ .V3 =
      .ok { address := .Byte 0, index := 1, length := 0, data := [] } ∧
    ZObjectProperty.from_memory 2 (.Byte 0) ⟨[34, 0xAA, 0xBB]⟩ .V3 =
      .ok { address := .Byte 0, index := 2, length := 1, data := [0xAA] } := by
  decide

/-- C6 (code bug): resetting a version-3 header against a memory whose Flags1
byte 0x01 holds the status-line-type bit 0x02 writes 0 back to byte 0x01:
the source masks with `STATUS_LINE_TYPE & STORY_SPLIT_DISCS`, the
intersection of two disjoint bits, so every Flags1 bit is cleared instead of
being preserved. -/
theorem C6_reset_clears_flags1 :
    memFlags1Set.read_byte (.Byte 1) = .ok 0x02 ∧
      (match hdrV3.reset memFlags1Set with
       | .ok p => p.2.read_byte (.Byte 1)
       | .error e => .error e) = .ok 0 := by
  decide

/-- C7: for a memory image of at least header size whose byte at offset 0 is
in 1..=8, `ZMachineHeader::from_memory` returns a header whose version is
that byte; for any other value of the version byte it fails with the
unknown-version fault. -/
theorem C7_header_version_decoding (m : ZMemory) (b : Nat)
    (hlen : 64 ≤ m.buffer.length) (hb : m.buffer[0]? = some b) :
    (1 ≤ b ∧ b ≤ 8 →
      ∃ hh, ZMachineHeader.from_memory m = .ok hh ∧ hh.version.toNat = b) ∧
    (¬(1 ≤ b ∧ b ≤ 8) →
      ZMachineHeader.from_memory m =
        .error (.MachineUnknownVersion b)) := by
  have hb' : m.read_byte (.Byte 0) = .ok b := by
    simp [ZMemory.read_byte, hb]
  constructor
  · rintro ⟨h1, h8⟩
    obtain ⟨v, hv⟩ := tryFrom_ok_of b h1 h8
    obtain ⟨hh, w6, hw6, hfm, hhv, hhpc⟩ :=
      from_memory_ok_of m b v hlen hb' hv
    exact ⟨hh, hfm, by rw [hhv, tryFrom_toNat b v hv]⟩
  · intro hnb
    unfold ZMachineHeader.from_memory
    simp only [hb', tryFrom_err b hnb]

/-- C7 (witness): the statement applied to a 64-byte image of 3s (version
byte 3) and a 64-byte image of 9s (version byte 9). -/
theorem C7_header_version_decoding_witness :
    (∃ hh, ZMachineHeader.from_memory ⟨List.replicate 64 3⟩ = .ok hh ∧
      hh.version.toNat = 3) ∧
    ZMachineHeader.from_memory ⟨List.replicate 64 9⟩ =
      .error (.MachineUnknownVersion 9) :=
  ⟨(C7_header_version_decoding ⟨List.replicate 64 3⟩ 3 (by decide)
      (by decide)).1 (by decide),
   (C7_header_version_decoding ⟨List.replicate 64 9⟩ 9 (by decide)
      (by decide)).2 (by decide)⟩

/-- C8 (counterexample): with a 65536-byte buffer and word address
`a = 0xFFFF`, the index of the second byte, `a + 1`, is computed in `u16`
and wraps to 0, so `read_word` succeeds (reading bytes 65535 and 0) even
though `a + 1 = 65536` is not a valid index -- the claim demands an
out-of-bounds fault there. -/
theorem C8_counterexample :
    (List.replicate 65536 (0 : Nat)).length = 65536 ∧
      ZMemory.read_word ⟨List.replicate 65536 (0 : Nat)⟩ (.Word 65535) =
        .ok 0 := by
  have e1 : (List.replicate 65536 (0 : Nat))[65535]? = some 0 :=
    List.getElem?_replicate_of_lt (by norm_num)
  have e0 : (List.replicate 65536 (0 : Nat))[(65535 + 1) % 65536]? =
      some 0 := by
    rw [(by norm_num : (65535 + 1) % 65536 = 0)]
    exact List.getElem?_replicate_of_lt (by norm_num)
  refine ⟨List.length_replicate 65536 0, ?_⟩
  rw [ZMemory.read_word]
  rw [show ((⟨List.replicate 65536 (0 : Nat)⟩ : ZMemory).buffer) =
        List.replicate 65536 (0 : Nat) from rfl]
  rw [e1, e0]
  rfl

/-- C8 (amended): for every buffer and `u16` address value `a`:
`read_byte(Byte(a))` succeeds exactly when `a < L` and fails with an
out-of-bounds fault otherwise; `read_word(Word(a))` fails with an
out-of-bounds fault whenever `a ≥ L` or `(a + 1) mod 2^16 ≥ L` (the
second byte's index is computed with wrapping `u16` arithmetic, so at
`a = 0xFFFF` it wraps to 0) and succeeds when both indices are in bounds;
and every read/write with an address of the wrong kind fails with an
invalid-address-kind fault -- in this functional embedding an erroring
write returns no new memory, so the buffer is untouched. -/
theorem C8_memory_access_faults (m : ZMemory) (a v : Nat) (_ha : a < 65536) :
    (a < m.buffer.length → ∃ w, m.read_byte (.Byte a) = .ok w) ∧
    (m.buffer.length ≤ a →
      m.read_byte (.Byte a) = .error (.MemoryInvalidAccess a)) ∧
    (a < m.buffer.length → (a + 1) % 65536 < m.buffer.length →
      ∃ w, m.read_word (.Word a) = .ok w) ∧
    (m.buffer.length ≤ a →
      m.read_word (.Word a) = .error (.MemoryInvalidAccess a)) ∧
    (a < m.buffer.length → m.buffer.length ≤ (a + 1) % 65536 →
      m.read_word (.Word a) =
        .error (.MemoryInvalidAccess ((a + 1) % 65536))) ∧
    (m.read_byte (.Word a) = .error (.MemoryInvalidAddress (.Word a))) ∧
    (m.read_byte (.RelativeWord a) =
      .error (.MemoryInvalidAddress (.RelativeWord a))) ∧
    (m.read_byte (.Packed a) = .error (.MemoryInvalidAddress (.Packed a))) ∧
    (m.read_word (.Byte a) = .error (.MemoryInvalidAddress (.Byte a))) ∧
    (m.read_word (.RelativeWord a) =
      .error (.MemoryInvalidAddress (.RelativeWord a))) ∧
    (m.read_word (.Packed a) = .error (.MemoryInvalidAddress (.Packed a))) ∧
    (m.write_byte (.Word a) v = .error (.MemoryInvalidAddress (.Word a))) ∧
    (m.write_byte (.RelativeWord a) v =
      .error (.MemoryInvalidAddress (.RelativeWord a))) ∧
    (m.write_byte (.Packed a) v =
      .error (.MemoryInvalidAddress (.Packed a))) ∧
    (m.write_word (.Byte a) v = .error (.MemoryInvalidAddress (.Byte a))) ∧
    (m.write_word (.RelativeWord a) v =
      .error (.MemoryInvalidAddress (.RelativeWord a))) ∧
    (m.write_word (.Packed a) v =
      .error (.MemoryInvalidAddress (.Packed a))) := by
  refine ⟨fun h => m.read_byte_ok a h,
    fun h => m.read_byte_err a h,
    fun h1 h2 => ?_,
    fun h => ?_, fun h1 h2 => ?_,
    rfl, rfl, rfl, rfl, rfl, rfl, rfl, rfl, rfl, rfl, rfl, rfl⟩
  · simp [ZMemory.read_word, List.getElem?_eq_getElem h1,
      List.getElem?_eq_getElem h2]
  · simp [ZMemory.read_word, List.getElem?_eq_none h]
  · simp [ZMemory.read_word, List.getElem?_eq_getElem h1,
      List.getElem?_eq_none h2]

/-- C8 (witness): the amended statement at a concrete two-byte buffer:
reading the last valid byte index succeeds and a kind-mismatched read
faults. -/
theorem C8_memory_access_faults_witness :
    (∃ w, ZMemory.read_byte ⟨[7, 9]⟩ (.Byte 1) = .ok w) ∧
      ZMemory.read_byte ⟨[7, 9]⟩ (.Word 1) =
        .error (.MemoryInvalidAddress (.Word 1)) ∧
      ZMemory.read_byte ⟨[7, 9]⟩ (.Byte 2) =
        .error (.MemoryInvalidAccess 2) := by
  have h := C8_memory_access_faults ⟨[7, 9]⟩ 1 0 (by decide)
  have h2 := C8_memory_access_faults ⟨[7, 9]⟩ 2 0 (by decide)
  exact ⟨h.1 (by decide), h.2.2.2.2.2.1, h2.2.1 (by decide)⟩

/-- C9 (counterexample): a 64-byte version-6 image makes
`ZMachine::from_story_reader` fail with `MemoryInvalidAddress (Packed 0)` --
the CPU constructor rejects the packed initial PC before the version is
checked -- not with the unsupported-version fault the claim demands. -/
theorem C9_counterexample :
    ZMachine.from_story_reader ((List.replicate 64 0).set 0 6) =
      .error (.MemoryInvalidAddress (.Packed 0)) ∧
      ZmError.MemoryInvalidAddress (.Packed 0) ≠
        ZmError.MachineUnsupportedVersion .V6 := by
  decide

/-- C9 (amended): loading a headed (≥ 64-byte) image whose version byte is
1, 2, 4 or 5 fails with the unsupported-version fault for that version;
an image with version byte 6, 7 or 8 also fails -- no machine is ever
returned for a non-V3 image -- but with an invalid-address fault, because
`ZCpu::from_header` rejects the packed initial PC before the version
check. -/
theorem C9_load_version_gate (bytes : List Nat) (b : Nat)
    (hlen : 64 ≤ bytes.length) (hb : bytes[0]? = some b) :
    (b = 1 ∨ b = 2 ∨ b = 4 ∨ b = 5 →
      ∃ v, ZMachineVersion.tryFrom b = .ok v ∧
        ZMachine.from_story_reader bytes =
          .error (.MachineUnsupportedVersion v)) ∧
    (b = 6 ∨ b = 7 ∨ b = 8 →
      ∃ w, ZMachine.from_story_reader bytes =
        .error (.MemoryInvalidAddress (.Packed w))) := by
  have hlen' : 64 ≤ (ZMemory.mk bytes).buffer.length := hlen
  have hb' : (ZMemory.mk bytes).read_byte (.Byte 0) = .ok b := by
    simp [ZMemory.read_byte, hb]
  constructor
  · intro hc
    have hv48 : ∃ v, ZMachineVersion.tryFrom b = .ok v ∧ v ≠ .V3 ∧
        ¬6 ≤ v.toNat := by
      rcases hc with rfl | rfl | rfl | rfl
      · exact ⟨.V1, rfl, by decide, by decide⟩
      · exact ⟨.V2, rfl, by decide, by decide⟩
      · exact ⟨.V4, rfl, by decide, by decide⟩
      · exact ⟨.V5, rfl, by decide, by decide⟩
    obtain ⟨v, hv, hvne, hv6⟩ := hv48
    obtain ⟨hh, w6, hw6, hfm, hhv, hhpc⟩ :=
      from_memory_ok_of ⟨bytes⟩ b v hlen' hb' hv
    obtain ⟨h2, m2, hreset, hver, hpc⟩ := reset_ok hh ⟨bytes⟩ hlen'
    rw [if_neg hv6] at hhpc
    have hfh : ZCpu.from_header h2 =
        .ok { target := h2.version, pc := w6 } := by
      simp only [ZCpu.from_header, ZMachineHeader.get_initial_pc, hpc, hhpc,
        ZMachineHeader.get_version]
    refine ⟨v, hv, ?_⟩
    unfold ZMachine.from_story_reader
    simp only [hfm, hreset, hfh, ZMachineHeader.get_version]
    rw [hhv]
    cases v <;> first | exact absurd rfl hvne | rfl
  · intro hc
    have hv678 : ∃ v, ZMachineVersion.tryFrom b = .ok v ∧ 6 ≤ v.toNat := by
      rcases hc with rfl | rfl | rfl
      · exact ⟨.V6, rfl, by decide⟩
      · exact ⟨.V7, rfl, by decide⟩
      · exact ⟨.V8, rfl, by decide⟩
    obtain ⟨v, hv, hv6⟩ := hv678
    obtain ⟨hh, w6, hw6, hfm, hhv, hhpc⟩ :=
      from_memory_ok_of ⟨bytes⟩ b v hlen' hb' hv
    obtain ⟨h2, m2, hreset, hver, hpc⟩ := reset_ok hh ⟨bytes⟩ hlen'
    rw [if_pos hv6] at hhpc
    have hfh : ZCpu.from_header h2 =
        .error (.MemoryInvalidAddress (.Packed w6)) := by
      simp only [ZCpu.from_header, ZMachineHeader.get_initial_pc, hpc, hhpc]
    refine ⟨w6, ?_⟩
    unfold ZMachine.from_story_reader
    simp only [hfm, hreset, hfh]

/-- C9 (witness): the amended statement at a version-1 image (fails
unsupported-version) and a version-7 image (fails invalid-address on the
packed initial PC). -/
theorem C9_load_version_gate_witness :
    (∃ v, ZMachineVersion.tryFrom 1 = .ok v ∧
      ZMachine.from_story_reader ((List.replicate 64 0).set 0 1) =
        .error (.MachineUnsupportedVersion v)) ∧
    (∃ w, ZMachine.from_story_reader ((List.replicate 64 0).set 0 7) =
      .error (.MemoryInvalidAddress (.Packed w))) :=
  ⟨(C9_load_version_gate ((List.replicate 64 0).set 0 1) 1 (by decide)
      (by decide)).1 (by decide),
   (C9_load_version_gate ((List.replicate 64 0).set 0 7) 7 (by decide)
      (by decide)).2 (by decide)⟩

/-- C10: `ZCpu::step` never modifies the memory image -- successful or
faulting, the buffer returned is the buffer passed in -- the target version
is unchanged, and the program counter advances (as a `u16`) by exactly the
number of bytes the decoder consumed (`stepConsumed`); instruction execution
writes nothing. -/
theorem C10_step_frame (c : ZCpu) (memory : ZMemory) (hpc : c.pc < 65536) :
    (c.step memory).2.2 = memory ∧
      (c.step memory).2.1.target = c.target ∧
      (c.step memory).2.1.pc = (c.pc + c.stepConsumed memory) % 65536 := by
  simp only [ZCpu.step, ZCpu.fetch_decoded_instruction, Operation.decoded,
    ZCpu.nextByteAtPc, ZCpu.execute_decoded_instruction, ZCpu.stepConsumed]
  cases h1 : memory.read_byte (.Byte c.pc) with
  | error e => simp [Nat.mod_eq_of_lt hpc]
  | ok opcode_msb =>
    cases hf : InstructionForm.from_opcode opcode_msb c.target with
    | Extended =>
      cases h2 : memory.read_byte (.Byte ((c.pc + 1) % 65536)) with
      | error e => simp [hf, h2]
      | ok b2 =>
        simp [hf, h2]
        try omega
    | Long => simp [hf]
    | Short => simp [hf]
    | Variable => simp [hf]

/-- C10 (witness): the frame property at a concrete CPU and memory. -/
theorem C10_step_frame_witness :
    (0 : Nat) < 65536 ∧
      ((ZCpu.step ⟨.V3, 0⟩ ⟨[0xB0]⟩).2.2 = ⟨[0xB0]⟩ ∧
        (ZCpu.step ⟨.V3, 0⟩ ⟨[0xB0]⟩).2.1.target = ZMachineVersion.V3 ∧
        (ZCpu.step ⟨.V3, 0⟩ ⟨[0xB0]⟩).2.1.pc =
          (0 + ZCpu.stepConsumed ⟨.V3, 0⟩ ⟨[0xB0]⟩) % 65536) :=
  ⟨by decide, C10_step_frame ⟨.V3, 0⟩ ⟨[0xB0]⟩ (by decide)⟩

end Rustifzm
